import Mathlib

/-!
Verification of the memoized HTTP request subsystem (package `request`):
cache-key derivation (`generateKey`), the TTL cache store (`getCache`,
`setCache`, `deleteCache`), the cache-wrapped entry points (`GetWithCache`,
`PostWithCache`), and the request executor (`Execute`).

Machine integers are modelled as `Nat` with explicit reductions `% 2 ^ 32`;
byte sequences as `List Nat` (each element a byte value).
-/

namespace RequestSpec

/-- UTF-8 encoding of one Unicode code point as byte values. -/
def utf8EncodeChar (n : Nat) : List Nat :=
  if n < 128 then [n]
  else if n < 2048 then [192 + n / 64, 128 + n % 64]
  else if n < 65536 then [224 + n / 4096, 128 + (n / 64) % 64, 128 + n % 64]
  else [240 + n / 262144, 128 + (n / 4096) % 64, 128 + (n / 64) % 64, 128 + n % 64]

/-- Byte sequence of a string under UTF-8; mirrors the Go conversion
of a `string` to `[]byte`. -/
def strBytes (s : String) : List Nat :=
  (s.data.map (fun c => utf8EncodeChar c.toNat)).flatten

/-- Left rotation of a 32-bit word by `k` positions (`crypto/sha1` round
operation); the argument is assumed reduced below `2 ^ 32`. -/
def rotl32 (k x : Nat) : Nat :=
  x * 2 ^ k % 4294967296 + x / 2 ^ (32 - k)

/-- SHA-1 message padding: a `0x80` byte, zero bytes up to 56 mod 64, then
the 64-bit big-endian bit length of the message. -/
def sha1Pad (msg : List Nat) : List Nat :=
  let len := msg.length
  let zeros := (119 - len % 64) % 64
  msg ++ [128] ++ List.replicate zeros 0 ++
    ([56, 48, 40, 32, 24, 16, 8, 0].map (fun i => 8 * len / 2 ^ i % 256))

/-- Split a byte list into successive 64-byte blocks (the first argument is
recursion fuel, instantiated with the length of the list). -/
def chunks64 : Nat → List Nat → List (List Nat)
  | 0, _ => []
  | _, [] => []
  | fuel + 1, l => l.take 64 :: chunks64 fuel (l.drop 64)

/-- Big-endian 32-bit words of a 64-byte block. -/
def beWords : List Nat → List Nat
  | b0 :: b1 :: b2 :: b3 :: rest =>
      (b0 * 16777216 + b1 * 65536 + b2 * 256 + b3) :: beWords rest
  | _ => []

/-- Extend the 16 message words of a block by `n` further schedule words
(`crypto/sha1`: each new word is a 1-rotation of an xor of four earlier ones). -/
def sha1Extend : List Nat → Nat → List Nat
  | ws, 0 => ws
  | ws, n + 1 =>
    let i := ws.length
    sha1Extend
      (ws ++ [rotl32 1 (((ws.getD (i - 3) 0 ^^^ ws.getD (i - 8) 0) ^^^
        ws.getD (i - 14) 0) ^^^ ws.getD (i - 16) 0)]) n

/-- One SHA-1 compression round: state `(a, b, c, d, e)` updated with round
index `i` and schedule word `w`. -/
def sha1Round (st : Nat × Nat × Nat × Nat × Nat) (iw : Nat × Nat) :
    Nat × Nat × Nat × Nat × Nat :=
  let (a, b, c, d, e) := st
  let (i, w) := iw
  let f :=
    if i < 20 then (b &&& c) ||| ((4294967295 - b) &&& d)
    else if i < 40 then (b ^^^ c) ^^^ d
    else if i < 60 then ((b &&& c) ||| (b &&& d)) ||| (c &&& d)
    else (b ^^^ c) ^^^ d
  let k :=
    if i < 20 then 1518500249
    else if i < 40 then 1859775393
    else if i < 60 then 2400959708
    else 3395469782
  let t := (rotl32 5 a + f + e + k + w) % 4294967296
  (t, a, rotl32 30 b, c, d)

/-- Compress one 64-byte block into the running SHA-1 state. -/
def sha1Block (h : Nat × Nat × Nat × Nat × Nat) (block : List Nat) :
    Nat × Nat × Nat × Nat × Nat :=
  let ws := sha1Extend (beWords block) 64
  let (h0, h1, h2, h3, h4) := h
  let (a, b, c, d, e) := (List.zip (List.range 80) ws).foldl sha1Round h
  ((h0 + a) % 4294967296, (h1 + b) % 4294967296, (h2 + c) % 4294967296,
    (h3 + d) % 4294967296, (h4 + e) % 4294967296)

/-- Big-endian bytes of one 32-bit word. -/
def be32 (w : Nat) : List Nat :=
  [w / 16777216 % 256, w / 65536 % 256, w / 256 % 256, w % 256]

/-- The 20-byte SHA-1 digest of a byte sequence, mirroring `sha1.Sum`. -/
def sha1 (msg : List Nat) : List Nat :=
  let padded := sha1Pad msg
  let blocks := chunks64 padded.length padded
  let (h0, h1, h2, h3, h4) :=
    blocks.foldl sha1Block (1732584193, 4023233417, 2562383102, 271733878, 3285377520)
  be32 h0 ++ be32 h1 ++ be32 h2 ++ be32 h3 ++ be32 h4

/-- The URL-safe base64 alphabet used by `base64.URLEncoding`. -/
def b64urlAlphabet : List Char :=
  "ABCDEFGHIJKLMNOPQRSTUVWXYZabcdefghijklmnopqrstuvwxyz0123456789-_".data

/-- Character of the URL-safe base64 alphabet at a 6-bit index. -/
def b64Char (n : Nat) : Char := b64urlAlphabet.getD n 'A'

/-- URL-safe base64 encoding of a byte sequence, with `=` padding. -/
def base64url : List Nat → List Char
  | [] => []
  | [b0] => [b64Char (b0 / 4), b64Char (b0 % 4 * 16), '=', '=']
  | [b0, b1] => [b64Char (b0 / 4), b64Char (b0 % 4 * 16 + b1 / 16),
      b64Char (b1 % 16 * 4), '=']
  | b0 :: b1 :: b2 :: rest =>
      b64Char (b0 / 4) :: b64Char (b0 % 4 * 16 + b1 / 16) ::
        b64Char (b1 % 16 * 4 + b2 / 64) :: b64Char (b2 % 64) :: base64url rest

/-- String form of the URL-safe base64 encoding, mirroring
`base64.URLEncoding.EncodeToString`. -/
def base64urlString (bs : List Nat) : String := String.mk (base64url bs)

set_option maxRecDepth 100000 in
/-- Sanity check of the digest pipeline against the published SHA-1 test
vector for the string abc. -/
theorem sha1_known_vector :
    base64urlString (sha1 (strBytes "abc")) = "qZk-NkcGgWq6PiVxeFDCbJzQ2J0=" := by
  decide

/-- Hexadecimal digits used by net/url percent-escaping. -/
def hexUpper : List Char := "0123456789ABCDEF".data

/-- Go net/url shouldEscape for the query component: the bytes left
unescaped are ASCII letters, digits, and the marks hyphen, underscore,
period and tilde. -/
def queryByteUnescaped (b : Nat) : Bool :=
  decide ((65 ≤ b ∧ b ≤ 90) ∨ (97 ≤ b ∧ b ≤ 122) ∨ (48 ≤ b ∧ b ≤ 57) ∨
    b = 45 ∨ b = 95 ∨ b = 46 ∨ b = 126)

/-- Escaping of one byte for the query component: kept verbatim, space to
plus, everything else percent-encoded. -/
def queryEscapeByte (b : Nat) : List Char :=
  if queryByteUnescaped b then [Char.ofNat b]
  else if b == 32 then ['+']
  else ['%', hexUpper.getD (b / 16) '0', hexUpper.getD (b % 16) '0']

/-- Go url.QueryEscape: percent-encodes the UTF-8 bytes of a string for use
inside a query component. -/
def QueryEscape (s : String) : String :=
  String.mk ((strBytes s).map queryEscapeByte).flatten

/-- url.Values: a mapping from keys to lists of values (iteration order of
the Go map is irrelevant because Encode sorts the keys). -/
abbrev Values := List (String × List String)

/-- Insertion of a string into an ascending list (sort.Strings helper). -/
def insertSorted (x : String) : List String → List String
  | [] => [x]
  | y :: ys => if x ≤ y then x :: y :: ys else y :: insertSorted x ys

/-- Ascending sort of the key list, mirroring sort.Strings (byte order on
UTF-8 strings coincides with code-point order). -/
def sortStrings : List String → List String
  | [] => []
  | x :: xs => insertSorted x (sortStrings xs)

/-- Removal of consecutive duplicates from a sorted key list (a Go map
holds each key at most once). -/
def dedupSorted : List String → List String
  | [] => []
  | [x] => [x]
  | x :: y :: r => if x == y then dedupSorted (y :: r) else x :: dedupSorted (y :: r)

/-- Values of a key (Go map lookup; empty when the key is absent). -/
def Values.get (v : Values) (k : String) : List String :=
  ((v.find? (fun p => p.1 == k)).map Prod.snd).getD []

/-- url.Values.Encode: keys sorted, each key=value pair query-escaped, the
pairs joined with ampersands. -/
def Values.Encode (v : Values) : String :=
  let keys := dedupSorted (sortStrings (v.map Prod.fst))
  String.intercalate "&"
    (keys.map (fun k => (Values.get v k).map
      (fun s => QueryEscape k ++ "=" ++ QueryEscape s))).flatten

/-- A Go value passed as a request body, as json.Marshal sees it: scalar
JSON values, raw precomputed JSON bytes (covering composite values through
their serialization), or a value on which serialization fails (channels,
functions, non-finite floats); the tag distinguishes different such
values. -/
inductive JsonValue where
  | jnull
  | jbool (b : Bool)
  | jnum (n : Int)
  | jstr (s : String)
  | jraw (bytes : List Nat)
  | junserializable (tag : Nat)
deriving DecidableEq

/-- Lowercase hexadecimal digit as a byte value (encoding/json escapes). -/
def hexLowerByte (n : Nat) : Nat := ("0123456789abcdef".data.getD n '0').toNat

/-- Escaping of one character inside a JSON string literal, mirroring
encoding/json with its default HTML escaping. -/
def jsonEscapeChar (c : Char) : List Nat :=
  if c = '"' then [92, 34]
  else if c = '\\' then [92, 92]
  else if c = '\n' then [92, 110]
  else if c = '\r' then [92, 114]
  else if c = '\t' then [92, 116]
  else if c.toNat < 32 ∨ c = '<' ∨ c = '>' ∨ c = '&' then
    [92, 117, 48, 48, hexLowerByte (c.toNat / 16), hexLowerByte (c.toNat % 16)]
  else if c.toNat = 8232 then [92, 117, 50, 48, 50, 56]
  else if c.toNat = 8233 then [92, 117, 50, 48, 50, 57]
  else utf8EncodeChar c.toNat

/-- json.Marshal on a body value: the serialized bytes, or failure. -/
def jsonMarshal : JsonValue → Option (List Nat)
  | .jnull => some (strBytes "null")
  | .jbool true => some (strBytes "true")
  | .jbool false => some (strBytes "false")
  | .jnum n => some (strBytes (toString n))
  | .jstr s => some ([34] ++ (s.data.map jsonEscapeChar).flatten ++ [34])
  | .jraw bytes => some bytes
  | .junserializable _ => none

/-- The Request object: base URL and headers (the HTTP client and the error
handler are external collaborators, modelled at the Execute boundary). -/
structure Request where
  BaseURL : String
  Headers : List (String × String) := []

/-- GetBase returns the base url with the path appended after a slash, or
the base url alone when the path is empty. -/
def Request.GetBase (r : Request) (path : String) : String :=
  if path = "" then r.BaseURL else r.BaseURL ++ "/" ++ path

/-- Query string as computed in Get and generateKey: empty for a nil
query, Values.Encode otherwise. -/
def queryString : Option Values → String
  | none => ""
  | some q => Values.Encode q

/-- The URI built by Get (strings.Join of the base-plus-path and the query
string with a question mark); generateKey builds the same string. -/
def Request.getURI (r : Request) (path : String) (query : Option Values) : String :=
  r.GetBase path ++ "?" ++ queryString query

/-- Body bytes used by generateKey: empty for a nil body; otherwise
json.Marshal with the error discarded, so a failed marshal leaves the
bytes empty. -/
def bodyBytes : Option JsonValue → List Nat
  | none => []
  | some v => (jsonMarshal v).getD []

/-- The byte sequence hashed by generateKey: the request URL bytes with the
body bytes appended (no separator between the two). -/
def Request.keyBytes (r : Request) (path : String) (query : Option Values)
    (body : Option JsonValue) : List Nat :=
  strBytes (r.getURI path query) ++ bodyBytes body

/-- generateKey generates a cache key from the request: the URL-safe base64
encoding of the SHA-1 digest of the request URL bytes followed by the
marshalled body bytes. -/
def Request.generateKey (r : Request) (path : String) (query : Option Values)
    (body : Option JsonValue) : String :=
  base64urlString (sha1 (r.keyBytes path query body))

/-- A value stored in the go-cache store: the byte payloads written by
setCache, or a value of some other type (exercising the cast in
getCache). -/
inductive StoredVal where
  | bytes (b : List Nat)
  | other (tag : Nat)
deriving DecidableEq

/-- The memory cache store: keys associated with stored values and the
duration they were set with (clock-driven expiry of entries is external
to the claims treated here). -/
abbrev Store := List (String × StoredVal × Nat)

/-- go-cache Get: the entry under the key, if any. -/
def storeGet (st : Store) (k : String) : Option StoredVal :=
  (st.find? (fun e => e.1 == k)).map (fun e => e.2.1)

/-- Entry under a key together with its duration. -/
def storeGetEntry (st : Store) (k : String) : Option (StoredVal × Nat) :=
  (st.find? (fun e => e.1 == k)).map (fun e => e.2)

/-- go-cache Set: replace or insert the entry under the key. -/
def storeSet (st : Store) (k : String) (v : StoredVal) (ttl : Nat) : Store :=
  match st with
  | [] => [(k, v, ttl)]
  | e :: rest => if e.1 == k then (k, v, ttl) :: rest else e :: storeSet rest k v ttl

/-- go-cache Delete: remove the entry under the key. -/
def storeDelete (st : Store) (k : String) : Store :=
  st.filter (fun e => e.1 != k)

/-- Operations on the RWMutex of the store, in the order the code performs
them: rlock and runlock are the shared acquire and release, lock and
unlock the exclusive ones. -/
inductive LockOp where
  | rlock
  | runlock
  | lock
  | unlock
deriving DecidableEq

/-- An error value; the message mirrors the corresponding errors.E
construction. -/
structure Err where
  msg : String
deriving DecidableEq

/-- getCache restores a value from the store: an absent key, a stored
value of a non-byte type, and bytes that fail to unmarshal into the value
are the three error cases. The lookup takes no lock, so the trace of lock
operations is empty. -/
def getCache (st : Store) (key : String) (decode : List Nat → Option α) :
    Except Err α × List LockOp :=
  match storeGet st key with
  | none => (.error ⟨"validator cache: invalid cache key"⟩, [])
  | some (.other _) => (.error ⟨"validator cache: failed to cast cache to bytes"⟩, [])
  | some (.bytes b) =>
    match decode b with
    | none => (.error ⟨"not found"⟩, [])
    | some v => (.ok v, [])

/-- setCache saves a value in the store: marshal the value, log the error
and return without storing when the marshal fails, otherwise store the
bytes under the key with the duration. The code takes the read lock on
entry and releases it by defer on both paths. -/
def setCache (st : Store) (key : String) (encode : α → Option (List Nat))
    (value : α) (duration : Nat) : Store × List LockOp :=
  match encode value with
  | none => (st, [.rlock, .runlock])
  | some b => (storeSet st key (.bytes b) duration, [.rlock, .runlock])

/-- deleteCache removes the entry under the key, under the read lock. -/
def deleteCache (st : Store) (key : String) : Store × List LockOp :=
  (storeDelete st key, [.rlock, .runlock])

/-- Outcome of one cache-wrapped call: the caller-visible result, the
store afterwards, and whether the underlying network call was made. -/
structure CacheCallOutcome (α : Type) where
  result : Except Err α
  store : Store
  networkCalled : Bool

/-- GetWithCache: derive the key from path and query with a nil body;
return a cache hit directly with no network call; on any getCache error
delegate to Get (modelled by its outcome `net`), propagating its error
with the store untouched, and otherwise store the marshalled result under
the key with the requested duration. -/
def Request.GetWithCache (r : Request) (path : String) (query : Option Values)
    (decode : List Nat → Option α) (encode : α → Option (List Nat))
    (net : Except Err α) (cacheDuration : Nat) (st : Store) : CacheCallOutcome α :=
  let key := r.generateKey path query none
  match (getCache st key decode).1 with
  | .ok v => ⟨.ok v, st, false⟩
  | .error _ =>
    match net with
    | .error e => ⟨.error e, st, true⟩
    | .ok v => ⟨.ok v, (setCache st key encode v cacheDuration).1, true⟩

/-- PostWithCache: identical protocol to GetWithCache, with the key
derived from path and body with a nil query, and Post as the underlying
call. -/
def Request.PostWithCache (r : Request) (path : String) (body : Option JsonValue)
    (decode : List Nat → Option α) (encode : α → Option (List Nat))
    (net : Except Err α) (cacheDuration : Nat) (st : Store) : CacheCallOutcome α :=
  let key := r.generateKey path none body
  match (getCache st key decode).1 with
  | .ok v => ⟨.ok v, st, false⟩
  | .error _ =>
    match net with
    | .error e => ⟨.error e, st, true⟩
    | .ok v => ⟨.ok v, (setCache st key encode v cacheDuration).1, true⟩

/-- A wrapped error: errors.E of the base error with the contextual
parameters method and url. -/
structure WrappedErr where
  base : Err
  method : String
  url : String
deriving DecidableEq

/-- External collaborators of one Execute call, each modelled by its
outcome at the point the code consults it: request construction, the
transport round trip, the error-classification hook on the received
response, reading the response body, and json.Unmarshal of body bytes
into the caller's result type. -/
structure ExecEnv (α : Type) where
  newRequestErr : Option Err
  transport : Except Err Unit
  hookErr : Option Err
  readBody : Except Err (List Nat)
  unmarshal : List Nat → Except Err α

/-- Execute: build the request, perform the round trip, run the error
hook, then read the body; an empty body returns success with the result
left unchanged (payload `none`), a non-empty body is unmarshalled into
the result (payload `some v`); every failure is wrapped with the method
and url parameters. -/
def Execute (method url : String) (env : ExecEnv α) : Except WrappedErr (Option α) :=
  match env.newRequestErr with
  | some e => .error ⟨e, method, url⟩
  | none =>
    match env.transport with
    | .error e => .error ⟨e, method, url⟩
    | .ok _ =>
      match env.hookErr with
      | some e => .error ⟨e, method, url⟩
      | none =>
        match env.readBody with
        | .error e => .error ⟨e, method, url⟩
        | .ok b =>
          if b.length = 0 then .ok none
          else
            match env.unmarshal b with
            | .error e => .error ⟨e, method, url⟩
            | .ok v => .ok (some v)

/-- Cache key as the specification words it: join the fully-qualified
target (base plus path) and the URL-encoded query string (empty when the
query is nil) with a question mark, append the JSON serialization of the
body when a body is present (empty byte sequence otherwise), take the
160-bit SHA-1 digest of the bytes, and encode it with the URL-safe base64
alphabet. This definition follows the specification text and is compared
against generateKey. -/
def specCacheKey (r : Request) (path : String) (query : Option Values)
    (bodySerialization : Option (List Nat)) : String :=
  let target := r.GetBase path
  let queryStr := match query with
    | none => ""
    | some q => Values.Encode q
  let urlStr := target ++ "?" ++ queryStr
  base64urlString (sha1 (strBytes urlStr ++ bodySerialization.getD []))

/-- Concrete request instance used by the evaluation witnesses. -/
def reqX : Request := ⟨"http://x", []⟩

/-- Concrete result decoder used by the evaluation witnesses. -/
def decodeNat (b : List Nat) : Option Nat := b.head?

/-- Concrete result encoder used by the evaluation witnesses. -/
def encodeNat (n : Nat) : Option (List Nat) := some [n]

/-- Concrete always-failing result encoder (an unserializable result). -/
def encodeFailNat (_ : Nat) : Option (List Nat) := none

/-- The entry written by storeSet is found under its key with its
duration. -/
theorem storeGetEntry_storeSet :
    ∀ (st : Store) (k : String) (v : StoredVal) (d : Nat),
      storeGetEntry (storeSet st k v d) k = some (v, d)
  | [], k, v, d => by simp [storeSet, storeGetEntry, List.find?]
  | e :: rest, k, v, d => by
    by_cases h : e.1 == k
    · simp [storeSet, storeGetEntry, List.find?, h]
    · simp only [storeSet, h, if_neg, Bool.false_eq_true, ite_false]
      have ih := storeGetEntry_storeSet rest k v d
      simpa [storeGetEntry, List.find?, h] using ih

/-- C1 (counterexample): two request descriptors with the same base URL
and path that differ both in query content and in body content receive
the identical cache key, because generateKey concatenates the URL string
and the body bytes with no separator: query a=1 with body 2 and query
a=12 with no body hash the same byte sequence. -/
theorem generateKey_collision :
    Request.generateKey ⟨"http://x", []⟩ "p" (some [("a", ["1"])]) (some (.jnum 2)) =
      Request.generateKey ⟨"http://x", []⟩ "p" (some [("a", ["12"])]) none ∧
    (some [("a", ["1"])] : Option Values) ≠ some [("a", ["12"])] ∧
    (some (JsonValue.jnum 2) : Option JsonValue) ≠ none := by
  refine ⟨?_, by decide, by decide⟩
  have h : Request.keyBytes ⟨"http://x", []⟩ "p" (some [("a", ["1"])]) (some (.jnum 2)) =
      Request.keyBytes ⟨"http://x", []⟩ "p" (some [("a", ["12"])]) none := by decide
  unfold Request.generateKey
  rw [h]

set_option maxRecDepth 1000000 in
/-- C1 (amended): over a representative corpus of descriptors that differ
in path, in query content, or in body content and whose hashed byte
sequences differ, the computed cache keys are pairwise distinct; in
particular the two bodies with distinct serializations against the same
path give distinct keys. -/
theorem generateKey_corpus_distinct :
    Request.generateKey ⟨"http://x", []⟩ "p" none none ≠
      Request.generateKey ⟨"http://x", []⟩ "q" none none ∧
    Request.generateKey ⟨"http://x", []⟩ "p" none none ≠
      Request.generateKey ⟨"http://x", []⟩ "p" (some [("a", ["1"])]) none ∧
    Request.generateKey ⟨"http://x", []⟩ "p" none none ≠
      Request.generateKey ⟨"http://x", []⟩ "p" none (some (.jnum 2)) ∧
    Request.generateKey ⟨"http://x", []⟩ "q" none none ≠
      Request.generateKey ⟨"http://x", []⟩ "p" (some [("a", ["1"])]) none ∧
    Request.generateKey ⟨"http://x", []⟩ "q" none none ≠
      Request.generateKey ⟨"http://x", []⟩ "p" none (some (.jnum 2)) ∧
    Request.generateKey ⟨"http://x", []⟩ "p" (some [("a", ["1"])]) none ≠
      Request.generateKey ⟨"http://x", []⟩ "p" none (some (.jnum 2)) ∧
    Request.generateKey ⟨"http://x", []⟩ "p" none (some (.jnum 2)) ≠
      Request.generateKey ⟨"http://x", []⟩ "p" none (some (.jstr "b")) := by
  refine ⟨by decide, by decide, by decide, by decide, by decide, by decide, by decide⟩

/-- C2: generateKey is exactly the URL-safe base64 encoding of the SHA-1
digest of the question-mark join of target and encoded query followed by
the JSON serialization of the body (empty when the body is nil), and
repeated computation on identical inputs yields the identical key. -/
theorem generateKey_matches_spec (r : Request) (path : String) (query : Option Values)
    (v : JsonValue) (bs : List Nat) (h : jsonMarshal v = some bs) :
    r.generateKey path query none = specCacheKey r path query none ∧
    r.generateKey path query (some v) = specCacheKey r path query (some bs) ∧
    r.generateKey path query (some v) = r.generateKey path query (some v) := by
  refine ⟨rfl, ?_, rfl⟩
  simp [Request.generateKey, specCacheKey, Request.keyBytes, bodyBytes, h,
    Request.getURI, queryString]

/-- C2 (witness): the equality evaluated at a concrete descriptor with a
serializable body. -/
theorem generateKey_matches_spec_witness :
    reqX.generateKey "p" none none = specCacheKey reqX "p" none none ∧
    reqX.generateKey "p" none (some (.jnum 2)) = specCacheKey reqX "p" none (some [50]) ∧
    reqX.generateKey "p" none (some (.jnum 2)) = reqX.generateKey "p" none (some (.jnum 2)) :=
  generateKey_matches_spec reqX "p" none (.jnum 2) [50] (by decide)

/-- C9: a body whose JSON serialization fails is silently treated as an
empty byte sequence by generateKey, so any two such bodies, and the nil
body, share one cache key for the same path and query. -/
theorem generateKey_unserializable (r : Request) (path : String) (query : Option Values)
    (b1 b2 : JsonValue) (h1 : jsonMarshal b1 = none) (h2 : jsonMarshal b2 = none) :
    r.generateKey path query (some b1) = r.generateKey path query (some b2) ∧
    r.generateKey path query (some b1) = r.generateKey path query none := by
  constructor <;>
    simp [Request.generateKey, Request.keyBytes, bodyBytes, h1, h2]

/-- C9 (witness): two distinct unserializable bodies against one path
share the cache key of the nil body. -/
theorem generateKey_unserializable_witness :
    reqX.generateKey "p" none (some (.junserializable 0)) =
      reqX.generateKey "p" none (some (.junserializable 1)) ∧
    reqX.generateKey "p" none (some (.junserializable 0)) =
      reqX.generateKey "p" none none :=
  generateKey_unserializable reqX "p" none (.junserializable 0) (.junserializable 1) rfl rfl

/-- C10: GetBase returns the base URL unchanged on the empty path and the
base URL, a slash, and the path otherwise; a nil query and an empty
non-nil query give the identical request URI in Get and the identical
cache key. -/
theorem getBase_empty_query (r : Request) (path : String) (hne : path ≠ "") :
    r.GetBase "" = r.BaseURL ∧
    r.GetBase path = r.BaseURL ++ "/" ++ path ∧
    (∀ p, r.getURI p none = r.getURI p (some [])) ∧
    (∀ p body, r.generateKey p none body = r.generateKey p (some []) body) := by
  refine ⟨by simp [Request.GetBase], by simp [Request.GetBase, hne], ?_, ?_⟩
  · intro p
    rfl
  · intro p body
    rfl

/-- C10 (witness): the statement evaluated at a concrete request and a
nonempty path. -/
theorem getBase_empty_query_witness :
    reqX.GetBase "" = reqX.BaseURL ∧
    reqX.GetBase "p" = reqX.BaseURL ++ "/" ++ "p" ∧
    (∀ p, reqX.getURI p none = reqX.getURI p (some [])) ∧
    (∀ p body, reqX.generateKey p none body = reqX.generateKey p (some []) body) :=
  getBase_empty_query reqX "p" (by decide)

/-- C3: on a cache hit whose stored bytes decode into the result, the
cache-wrapped calls return the decoded value with nil error, leave the
store unchanged, and make no network call. -/
theorem withCache_hit {α : Type} (r : Request) (path : String) (query : Option Values)
    (body : Option JsonValue) (decode : List Nat → Option α)
    (encode : α → Option (List Nat)) (net : Except Err α) (ttl : Nat) (st : Store)
    (bG bP : List Nat) (vG vP : α)
    (hG : storeGet st (r.generateKey path query none) = some (.bytes bG))
    (hdG : decode bG = some vG)
    (hP : storeGet st (r.generateKey path none body) = some (.bytes bP))
    (hdP : decode bP = some vP) :
    r.GetWithCache path query decode encode net ttl st = ⟨.ok vG, st, false⟩ ∧
    r.PostWithCache path body decode encode net ttl st = ⟨.ok vP, st, false⟩ := by
  constructor
  · simp [Request.GetWithCache, getCache, hG, hdG]
  · simp [Request.PostWithCache, getCache, hP, hdP]

/-- Store holding one decodable entry under the key both wrapped calls
derive for path p with nil query and nil body. -/
def stHit : Store := [(reqX.generateKey "p" none none, .bytes [7], 99)]

set_option maxRecDepth 1000000 in
/-- C3 (witness): a hit on a concrete store returns the cached value with
no network call for both wrapped calls. -/
theorem withCache_hit_witness :
    reqX.GetWithCache "p" none decodeNat encodeNat (.error ⟨"net down"⟩) 60 stHit =
      ⟨.ok 7, stHit, false⟩ ∧
    reqX.PostWithCache "p" none decodeNat encodeNat (.error ⟨"net down"⟩) 60 stHit =
      ⟨.ok 7, stHit, false⟩ :=
  withCache_hit reqX "p" none none decodeNat encodeNat (.error ⟨"net down"⟩) 60 stHit
    [7] [7] 7 7 (by decide) rfl (by decide) rfl

/-- C4: on a cache miss of any kind the uncached call is made; when it
fails, its error is returned to the caller unchanged and the store is not
modified. -/
theorem withCache_miss_error {α : Type} (r : Request) (path : String)
    (query : Option Values) (body : Option JsonValue)
    (decode : List Nat → Option α) (encode : α → Option (List Nat))
    (ttl : Nat) (st : Store) (e errG errP : Err)
    (hG : (getCache st (r.generateKey path query none) decode).1 = .error errG)
    (hP : (getCache st (r.generateKey path none body) decode).1 = .error errP) :
    r.GetWithCache path query decode encode (.error e) ttl st = ⟨.error e, st, true⟩ ∧
    r.PostWithCache path body decode encode (.error e) ttl st = ⟨.error e, st, true⟩ := by
  constructor
  · simp [Request.GetWithCache, hG]
  · simp [Request.PostWithCache, hP]

/-- C4 (witness): with an empty store and a failing network call both
wrapped calls return that failure and leave the store empty. -/
theorem withCache_miss_error_witness :
    reqX.GetWithCache "p" none decodeNat encodeNat (.error ⟨"connection refused"⟩) 60 [] =
      ⟨.error ⟨"connection refused"⟩, [], true⟩ ∧
    reqX.PostWithCache "p" none decodeNat encodeNat (.error ⟨"connection refused"⟩) 60 [] =
      ⟨.error ⟨"connection refused"⟩, [], true⟩ :=
  withCache_miss_error reqX "p" none none decodeNat encodeNat 60 []
    ⟨"connection refused"⟩ ⟨"validator cache: invalid cache key"⟩
    ⟨"validator cache: invalid cache key"⟩ rfl rfl

/-- C5: when the uncached call succeeds after a miss, the serialized
result is stored under the derived key with the caller TTL; a failing
serialization stores nothing, and in both cases the call returns the
successful result with nil error. -/
theorem withCache_store_success {α : Type} (r : Request) (path : String)
    (query : Option Values) (body : Option JsonValue)
    (decode : List Nat → Option α) (encode encodeF : α → Option (List Nat))
    (ttl : Nat) (st : Store) (v : α) (bs : List Nat) (errG errP : Err)
    (hG : (getCache st (r.generateKey path query none) decode).1 = .error errG)
    (hP : (getCache st (r.generateKey path none body) decode).1 = .error errP)
    (hEnc : encode v = some bs) (hEncF : encodeF v = none) :
    r.GetWithCache path query decode encode (.ok v) ttl st =
      ⟨.ok v, storeSet st (r.generateKey path query none) (.bytes bs) ttl, true⟩ ∧
    storeGetEntry (r.GetWithCache path query decode encode (.ok v) ttl st).store
      (r.generateKey path query none) = some (.bytes bs, ttl) ∧
    r.PostWithCache path body decode encode (.ok v) ttl st =
      ⟨.ok v, storeSet st (r.generateKey path none body) (.bytes bs) ttl, true⟩ ∧
    storeGetEntry (r.PostWithCache path body decode encode (.ok v) ttl st).store
      (r.generateKey path none body) = some (.bytes bs, ttl) ∧
    r.GetWithCache path query decode encodeF (.ok v) ttl st = ⟨.ok v, st, true⟩ ∧
    r.PostWithCache path body decode encodeF (.ok v) ttl st = ⟨.ok v, st, true⟩ := by
  have hGet : r.GetWithCache path query decode encode (.ok v) ttl st =
      ⟨.ok v, storeSet st (r.generateKey path query none) (.bytes bs) ttl, true⟩ := by
    simp [Request.GetWithCache, hG, setCache, hEnc]
  have hPost : r.PostWithCache path body decode encode (.ok v) ttl st =
      ⟨.ok v, storeSet st (r.generateKey path none body) (.bytes bs) ttl, true⟩ := by
    simp [Request.PostWithCache, hP, setCache, hEnc]
  refine ⟨hGet, ?_, hPost, ?_, ?_, ?_⟩
  · rw [hGet]
    exact storeGetEntry_storeSet st (r.generateKey path query none) (.bytes bs) ttl
  · rw [hPost]
    exact storeGetEntry_storeSet st (r.generateKey path none body) (.bytes bs) ttl
  · simp [Request.GetWithCache, hG, setCache, hEncF]
  · simp [Request.PostWithCache, hP, setCache, hEncF]

/-- C5 (witness): after a miss on the empty store a successful call
stores its serialized result under the derived key with the TTL, while a
failing serialization is swallowed and stores nothing. -/
theorem withCache_store_success_witness :
    reqX.GetWithCache "p" none decodeNat encodeNat (.ok 7) 60 [] =
      ⟨.ok 7, storeSet [] (reqX.generateKey "p" none none) (.bytes [7]) 60, true⟩ ∧
    storeGetEntry (reqX.GetWithCache "p" none decodeNat encodeNat (.ok 7) 60 []).store
      (reqX.generateKey "p" none none) = some (.bytes [7], 60) ∧
    reqX.PostWithCache "p" none decodeNat encodeNat (.ok 7) 60 [] =
      ⟨.ok 7, storeSet [] (reqX.generateKey "p" none none) (.bytes [7]) 60, true⟩ ∧
    storeGetEntry (reqX.PostWithCache "p" none decodeNat encodeNat (.ok 7) 60 []).store
      (reqX.generateKey "p" none none) = some (.bytes [7], 60) ∧
    reqX.GetWithCache "p" none decodeNat encodeFailNat (.ok 7) 60 [] = ⟨.ok 7, [], true⟩ ∧
    reqX.PostWithCache "p" none decodeNat encodeFailNat (.ok 7) 60 [] = ⟨.ok 7, [], true⟩ :=
  withCache_store_success reqX "p" none none decodeNat encodeNat encodeFailNat 60 [] 7 [7]
    ⟨"validator cache: invalid cache key"⟩ ⟨"validator cache: invalid cache key"⟩
    rfl rfl rfl rfl

/-- Every error Execute returns carries the method and url parameters it
was wrapped with. -/
theorem execute_error_fields {α : Type} (method url : String) (env : ExecEnv α)
    (w : WrappedErr) (hw : Execute method url env = .error w) :
    w.method = method ∧ w.url = url := by
  rcases env with ⟨nre, tr, he, rb, um⟩
  cases nre with
  | some e =>
    simp [Execute] at hw
    simp [← hw]
  | none =>
    cases tr with
    | error e =>
      simp [Execute] at hw
      simp [← hw]
    | ok u =>
      cases he with
      | some e =>
        simp [Execute] at hw
        simp [← hw]
      | none =>
        cases rb with
        | error e =>
          simp [Execute] at hw
          simp [← hw]
        | ok b =>
          by_cases hb : b.length = 0
          · simp [Execute, hb] at hw
          · cases hum : um b with
            | error e =>
              simp [Execute, hb, hum] at hw
              simp [← hw]
            | ok v =>
              simp [Execute, hb, hum] at hw

/-- C6: when request construction, the transport round trip and the error
hook succeed and the body reads as empty, Execute returns success without
touching the unmarshal step, leaving the caller result unchanged. -/
theorem execute_empty_body {α : Type} (method url : String) (env : ExecEnv α)
    (um : List Nat → Except Err α)
    (h1 : env.newRequestErr = none) (h2 : env.transport = .ok ())
    (h3 : env.hookErr = none) (h4 : env.readBody = .ok []) :
    Execute method url env = .ok none ∧
    Execute method url { env with unmarshal := um } = .ok none := by
  constructor
  · simp [Execute, h1, h2, h3, h4]
  · simp [Execute, h1, h2, h3, h4]

/-- Concrete Execute environment whose body reads as empty and whose
unmarshal step would fail if it were consulted. -/
def envEmptyBody : ExecEnv Nat :=
  ⟨none, .ok (), none, .ok [], fun _ => .error ⟨"unmarshal must not run"⟩⟩

/-- C6 (witness): the empty-body success evaluated on a concrete
environment, under two different unmarshal steps. -/
theorem execute_empty_body_witness :
    Execute "GET" "http://x/p?" envEmptyBody = .ok none ∧
    Execute "GET" "http://x/p?" { envEmptyBody with unmarshal := fun _ => .ok 5 } = .ok none :=
  execute_empty_body "GET" "http://x/p?" envEmptyBody (fun _ => .ok 5) rfl rfl rfl rfl

/-- C7: a non-nil error from the classification hook is returned wrapped
with the method and url, independently of the body-read and unmarshal
collaborators, which are never consulted; and every error Execute returns
carries the method and url it was wrapped with. -/
theorem execute_hook_error {α : Type} (method url : String) (env env2 : ExecEnv α)
    (e : Err) (rb : Except Err (List Nat)) (um : List Nat → Except Err α)
    (w : WrappedErr)
    (h1 : env.newRequestErr = none) (h2 : env.transport = .ok ())
    (h3 : env.hookErr = some e)
    (hw : Execute method url env2 = .error w) :
    Execute method url env = .error ⟨e, method, url⟩ ∧
    Execute method url { env with readBody := rb, unmarshal := um } =
      .error ⟨e, method, url⟩ ∧
    w.method = method ∧ w.url = url := by
  refine ⟨?_, ?_, execute_error_fields method url env2 w hw⟩
  · simp [Execute, h1, h2, h3]
  · simp [Execute, h1, h2, h3]

/-- Concrete Execute environment whose hook reports an error and whose
later collaborators would fail if they were consulted. -/
def envHookErr : ExecEnv Nat :=
  ⟨none, .ok (), some ⟨"bad status"⟩, .error ⟨"read must not run"⟩,
    fun _ => .error ⟨"unmarshal must not run"⟩⟩

/-- C7 (witness): the hook error evaluated on a concrete environment,
with replaced body-read and unmarshal collaborators, and the wrapping
fields checked on a concrete erring call. -/
theorem execute_hook_error_witness :
    Execute "GET" "http://x/p?" envHookErr = .error ⟨⟨"bad status"⟩, "GET", "http://x/p?"⟩ ∧
    Execute "GET" "http://x/p?"
      { envHookErr with readBody := .ok [1], unmarshal := fun _ => .ok 5 } =
      .error ⟨⟨"bad status"⟩, "GET", "http://x/p?"⟩ ∧
    (⟨⟨"bad status"⟩, "GET", "http://x/p?"⟩ : WrappedErr).method = "GET" ∧
    (⟨⟨"bad status"⟩, "GET", "http://x/p?"⟩ : WrappedErr).url = "http://x/p?" :=
  execute_hook_error "GET" "http://x/p?" envHookErr envHookErr ⟨"bad status"⟩
    (.ok [1]) (fun _ => .ok 5) ⟨⟨"bad status"⟩, "GET", "http://x/p?"⟩ rfl rfl rfl rfl

/-- C8: the mutation operations setCache and deleteCache take the shared
read lock of the RWMutex rather than the exclusive lock, and the lookup
getCache takes no outer lock at all. -/
theorem cache_lock_discipline :
    (∀ (α : Type) (st : Store) (key : String) (encode : α → Option (List Nat))
        (v : α) (d : Nat),
      (setCache st key encode v d).2 = [.rlock, .runlock] ∧
        LockOp.lock ∉ (setCache st key encode v d).2) ∧
    (∀ (st : Store) (key : String),
      (deleteCache st key).2 = [.rlock, .runlock] ∧
        LockOp.lock ∉ (deleteCache st key).2) ∧
    (∀ (α : Type) (st : Store) (key : String) (decode : List Nat → Option α),
      (getCache st key decode).2 = []) := by
  refine ⟨?_, ?_, ?_⟩
  · intro α st key encode v d
    cases h : encode v with
    | none => exact ⟨by simp [setCache, h], by simp [setCache, h]⟩
    | some b => exact ⟨by simp [setCache, h], by simp [setCache, h]⟩
  · intro st key
    exact ⟨rfl, by simp [deleteCache]⟩
  · intro α st key decode
    cases h : storeGet st key with
    | none => simp [getCache, h]
    | some sv =>
      cases sv with
      | other t => simp [getCache, h]
      | bytes b =>
        cases hd : decode b with
        | none => simp [getCache, h, hd]
        | some v => simp [getCache, h, hd]

end RequestSpec
